import Mathlib

/-!
Shallow embedding of the batch extraction orchestrator
(`src/background.js`) and the native-messaging file-writing host
(`src/native-host/save_file.js`) of the conversation-history downloader,
together with proofs of the specified properties.

Effectful browser / filesystem operations are modelled by explicit
outcome environments (`Except`-valued fields), and the JavaScript
functions are translated statement by statement into pure Lean
functions over those environments.
-/

/-! ## Filename sanitization (`sanitizeFilename` in `src/background.js`)

The JavaScript pipeline is
`title.replace(/[<>:"\/\\|?*\x00-\x1f]/g,'').replace(/\s+/g,'-')
      .replace(hyphen-run regex, '-').replace(/^-|-$/g,'').substring(0,60) || 'Untitled'`.
Each `.replace` stage is translated into a structurally recursive pass
over the character list.  `substring(0,60)` counts UTF-16 code units;
Lean's `Char` is a Unicode scalar value (and cannot hold the lone
surrogate a JS slice could create), so the truncation is modelled as
taking 60 characters — identical to the source on all strings of
basic-multilingual-plane characters, which every witness below uses. -/

/-- The character class `[<>:"/\\|?*\x00-\x1f]` stripped by the first
`replace` of `sanitizeFilename`. -/
def isIllegalChar (c : Char) : Bool :=
  c == '<' || c == '>' || c == ':' || c == '"' || c == '/' || c == '\\' ||
  c == '|' || c == '?' || c == '*' || c.toNat ≤ 0x1f

/-- ECMAScript `\s`: tab through carriage return, space, NBSP, Ogham
space mark, the U+2000–U+200A range, line/paragraph separators, narrow
NBSP, medium mathematical space, ideographic space, and BOM. -/
def isJsSpace (c : Char) : Bool :=
  let n := c.toNat
  n == 0x09 || n == 0x0a || n == 0x0b || n == 0x0c || n == 0x0d || n == 0x20 ||
  n == 0xa0 || n == 0x1680 || (0x2000 ≤ n && n ≤ 0x200a) ||
  n == 0x2028 || n == 0x2029 || n == 0x202f || n == 0x205f || n == 0x3000 ||
  n == 0xfeff

/-- `.replace(/[<>:"\/\\|?*\x00-\x1f]/g, '')`: drop every illegal character. -/
def stripIllegal (l : List Char) : List Char :=
  l.filter (fun c => !isIllegalChar c)

/-- State machine for `.replace(/\s+/g, '-')`: the flag records whether
the previous character belonged to a whitespace run (in which case
further whitespace is absorbed into the already-emitted hyphen). -/
def spacesToHyphensAux : Bool → List Char → List Char
  | _, [] => []
  | inRun, c :: cs =>
    if isJsSpace c then
      if inRun then spacesToHyphensAux true cs
      else '-' :: spacesToHyphensAux true cs
    else c :: spacesToHyphensAux false cs

/-- `.replace(/\s+/g, '-')`: each maximal whitespace run becomes one hyphen. -/
def spacesToHyphens (l : List Char) : List Char :=
  spacesToHyphensAux false l

/-- State machine for `.replace(hyphen-run regex, '-')`: the flag records whether
the previous character belonged to a hyphen run. -/
def collapseHyphensAux : Bool → List Char → List Char
  | _, [] => []
  | inRun, c :: cs =>
    if c = '-' then
      if inRun then collapseHyphensAux true cs
      else '-' :: collapseHyphensAux true cs
    else c :: collapseHyphensAux false cs

/-- `.replace(hyphen-run regex, '-')`: each maximal hyphen run becomes one hyphen. -/
def collapseHyphens (l : List Char) : List Char :=
  collapseHyphensAux false l

/-- The `^-` alternative of `.replace(/^-|-$/g, '')`: remove one leading hyphen. -/
def trimLeadHyphen (l : List Char) : List Char :=
  match l with
  | c :: rest => if c = '-' then rest else l
  | [] => l

/-- The `-$` alternative of `.replace(/^-|-$/g, '')`: remove one trailing hyphen. -/
def trimTrailHyphen (l : List Char) : List Char :=
  if l.getLast? = some '-' then l.dropLast else l

/-- `.replace(/^-|-$/g, '')`: the global regex removes at most one
leading and one trailing hyphen (a hyphen consumed by `^-` is not
reconsidered by `-$`). -/
def trimHyphens (l : List Char) : List Char :=
  trimTrailHyphen (trimLeadHyphen l)

/-- `sanitizeFilename` from `src/background.js`. -/
def sanitizeFilename (title : String) : String :=
  let t := (trimHyphens (collapseHyphens (spacesToHyphens
             (stripIllegal title.data)))).take 60
  if t.isEmpty then "Untitled" else String.mk t

example : sanitizeFilename "My Chat: notes?" = "My-Chat-notes" := by decide
example : sanitizeFilename "  a   b  " = "a-b" := by decide
example : sanitizeFilename "<>:" = "Untitled" := by decide
example : sanitizeFilename "--a--b--" = "a-b" := by decide

/-! ## Native messaging host (`src/native-host/save_file.js`)

`handleMessage` dispatches on `msg.action`, accumulating `writeChunk`
parts in the global `chunkStore` keyed by `dirName + '/' + fileName`,
writing files through `writeFile`, and answering `checkExists` from the
filesystem.  The mutable `chunkStore` and the files on disk are modelled
by an explicit `HostState`; the possibility that `fs.mkdirSync` /
`fs.writeFileSync` / `fs.existsSync` throw is modelled by an injected
outcome in `FsEnv`.  The `try { ... } catch (e) { return { success:
false, error: e.message } }` wrapper becomes a `match` on the
`Except`-valued body, keeping the state mutations performed before the
throw (as the JavaScript globals do). -/

/-- A parsed native-messaging request (`msg` in `save_file.js`). -/
inductive Msg where
  | write (dirName fileName content : String)
  | writeChunk (dirName fileName data : String) (final : Bool)
  | checkExists (dirName fileName : String)
  | unknown (action : String)
deriving DecidableEq, Repr

/-- A native-messaging response object: `{success, path?, exists?,
error?, status?}`. -/
structure Response where
  success : Bool
  path : Option String := none
  fileExists : Option Bool := none
  error : Option String := none
  status : Option String := none
deriving DecidableEq, Repr

/-- The host's mutable state: the global `chunkStore` (key ↦ accumulated
parts, in arrival order) and the files written below `BASE_DIR`
(path ↦ content). -/
structure HostState where
  chunkStore : List (String × List String) := []
  fs : List (String × String) := []
deriving DecidableEq, Repr

/-- Injected filesystem failures: `some e` makes the corresponding
`fs` call throw with message `e`. -/
structure FsEnv where
  writeThrows : Option String := none
  existsThrows : Option String := none

/-- The environment in which no filesystem call throws. -/
def fsOk : FsEnv := {}

/-- Association-list lookup for `chunkStore[key]` / the file map. -/
def alistLookup {α : Type} (k : String) : List (String × α) → Option α
  | [] => none
  | (k', v) :: rest => if k' = k then some v else alistLookup k rest

/-- `chunkStore[key] = v` (replace or add the binding). -/
def alistInsert {α : Type} (k : String) (v : α) : List (String × α) → List (String × α)
  | [] => [(k, v)]
  | (k', v') :: rest =>
    if k' = k then (k, v) :: rest else (k', v') :: alistInsert k v rest

/-- `delete chunkStore[key]`. -/
def alistErase {α : Type} (k : String) : List (String × α) → List (String × α)
  | [] => []
  | (k', v') :: rest => if k' = k then alistErase k rest else (k', v') :: alistErase k rest

/-- `path.join(BASE_DIR, dirName, fileName)` (the `BASE_DIR` prefix made
explicit; `path.join` inserts one separator between components). -/
def filePath (dirName fileName : String) : String :=
  "BASE_DIR/" ++ dirName ++ "/" ++ fileName

/-- `writeFile(dirName, fileName, content)`: `mkdirSync` recursive (no
visible effect in the model), `writeFileSync` overwriting any existing
file at the path, result `{success: true, path}`.  A thrown `fs` error
leaves the file map unchanged and propagates. -/
def writeFile (env : FsEnv) (st : HostState) (dirName fileName content : String) :
    HostState × Except String Response :=
  match env.writeThrows with
  | some e => (st, Except.error e)
  | none =>
    ({ st with fs := alistInsert (filePath dirName fileName) content st.fs },
     Except.ok { success := true, path := some (filePath dirName fileName) })

/-- The body of `handleMessage` up to its `catch`: returns the state as
mutated so far together with either a response or a thrown error. -/
def handleMessageBody (env : FsEnv) (st : HostState) : Msg → HostState × Except String Response
  | Msg.writeChunk dirName fileName data final =>
    let key := dirName ++ "/" ++ fileName
    let parts := (alistLookup key st.chunkStore).getD [] ++ [data]
    if final then
      let content := String.join parts
      writeFile env { st with chunkStore := alistErase key st.chunkStore }
        dirName fileName content
    else
      ({ st with chunkStore := alistInsert key parts st.chunkStore },
       Except.ok { success := true, status := some "chunk_received" })
  | Msg.write dirName fileName content => writeFile env st dirName fileName content
  | Msg.checkExists dirName fileName =>
    match env.existsThrows with
    | some e => (st, Except.error e)
    | none =>
      let p := filePath dirName fileName
      (st, Except.ok { success := true,
                       fileExists := some (alistLookup p st.fs).isSome,
                       path := some p })
  | Msg.unknown action =>
    (st, Except.ok { success := false, error := some ("Unknown action: " ++ action) })

/-- `handleMessage` from `save_file.js`: the body wrapped in the
`try`/`catch` that converts a thrown error into
`{success: false, error: e.message}`. -/
def handleMessage (env : FsEnv) (st : HostState) (msg : Msg) : HostState × Response :=
  match handleMessageBody env st msg with
  | (st', Except.ok r) => (st', r)
  | (st', Except.error e) => (st', { success := false, error := some e })

/-- One full native-messaging round trip as `main()` implements it:
a **fresh** host process (so an empty `chunkStore` — the accumulator is
process-local memory) reads exactly one message, handles it against the
persistent disk, responds, and `process.exit(0)`s, discarding its
in-memory state.  Only the disk (`fs`) survives to the next invocation
(and the extension's `sendNativeMessage` spawns one host process per
message anyway). -/
def hostInvocation (env : FsEnv) (fs : List (String × String)) (msg : Msg) :
    List (String × String) × Response :=
  ((handleMessage env { chunkStore := [], fs := fs } msg).1.fs,
   (handleMessage env { chunkStore := [], fs := fs } msg).2)

/-- Deliver an ordered chunk sequence for one destination: every part is
sent as a `writeChunk` message, only the last one flagged `final`, each
message served by a fresh host process as `main()` dictates. -/
def runChunks (env : FsEnv) (dirName fileName : String) :
    List (String × String) → List String → List (String × String)
  | fs, [] => fs
  | fs, [p] => (hostInvocation env fs (Msg.writeChunk dirName fileName p true)).1
  | fs, p :: ps => runChunks env dirName fileName
      (hostInvocation env fs (Msg.writeChunk dirName fileName p false)).1 ps

example :
    alistLookup (filePath "d" "f.md")
      (runChunks fsOk "d" "f.md" [] ["he", "ll", "o"]) = some "o" := by decide
example :
    alistLookup (filePath "d" "f.md")
      (runChunks fsOk "d" "f.md" [] ["x"]) = some "x" := by decide

/-! ## Batch orchestrator (`src/background.js`)

`extractSingleChat` drives one job through checkExists → navigate →
extract → chunked fetch → write, reporting progress along the way and
catching every thrown error at the job boundary.  Each awaited effect is
modelled by an `Except`-valued outcome in a per-job environment
`JobEnv` (`Except.error m` = the promise rejected / the call threw with
message `m`).  Besides the returned result object the model records the
emitted `reportProgress` events and the sequence of effectful operations
actually invoked, so that "extraction was never invoked" is directly
observable. -/

/-- One entry of the `chats` batch request: `{id, title, url}`. -/
structure Chat where
  id : String := ""
  title : String := ""
  url : String := ""
deriving DecidableEq, Repr, Inhabited

/-- The resolved value of the `checkExists` native call:
`{exists, path}` (plus `success`, unused by the caller). -/
structure ExistsResult where
  found : Bool
  path : String
deriving DecidableEq, Repr

/-- The resolved value of the `extract` message to the content script:
`{totalChunks?, error?, messageCount?}`.  `totalChunks = 0` models a
missing/zero field (falsy in `response.totalChunks`). -/
structure ExtractResponse where
  totalChunks : Nat
  error : Option String := none
  messageCount : Nat := 0
deriving DecidableEq, Repr

/-- The resolved value of the `write` native call, as consumed by
`extractSingleChat`: `{success, path}`. -/
structure WriteResult where
  success : Bool
  path : String
deriving DecidableEq, Repr

/-- Outcomes of the awaited effects of one job, as functions of the
request data actually sent.  `checkExists dirName fileName` is the
`sendToNativeHost({action:'checkExists',...})` round trip; `navigate
url` covers `tabs.update` + `waitForTabLoad`; `extract format` is the
`extract` message round trip (`Except.error` includes its 60 s timeout
rejection, `Except.ok none` a null response); `fetchChunks totalChunks`
is `fetchContentChunked`; `write dirName fileName content` is the
`write` native round trip.  `Except.error m` = the promise rejected /
the call threw with message `m`. -/
structure JobEnv where
  checkExists : String → String → Except String ExistsResult
  navigate : String → Except String Unit
  extract : String → Except String (Option ExtractResponse)
  fetchChunks : Nat → Except String String
  write : String → String → String → Except String WriteResult

/-- The per-job result object assembled by `extractSingleChat`; `none`
models an absent field. -/
structure JobResult where
  title : String
  success : Bool
  skipped : Option Bool := none
  path : Option String := none
  messageCount : Option Nat := none
  error : Option String := none
deriving DecidableEq, Repr

/-- The `status` strings passed to `reportProgress`. -/
inductive JobStatus where
  | navigating | saving | done | skipped | error
deriving DecidableEq, Repr

/-- One `batchProgress` message as sent by `reportProgress`. -/
structure ProgressEvent where
  current : Nat
  total : Nat
  title : String
  status : JobStatus
  error : Option String := none
deriving DecidableEq, Repr

/-- `reportProgress(current, total, title, status, error)`: the spread
`...(error ? { error } : {})` omits the field when `error` is absent or
empty (falsy). -/
def reportProgress (current total : Nat) (title : String) (status : JobStatus)
    (err : Option String) : ProgressEvent :=
  { current, total, title, status,
    error := match err with
             | some e => if e = "" then none else some e
             | none => none }

/-- The effectful operations a job can invoke, in invocation order. -/
inductive Op where
  | checkExists | navigate | extract | fetchChunks | write
deriving DecidableEq, Repr

/-- `{ markdown: 'md', html: 'html', plaintext: 'txt' }[format] || 'md'`. -/
def fileExtFor (format : String) : String :=
  if format = "markdown" then "md"
  else if format = "html" then "html"
  else if format = "plaintext" then "txt"
  else "md"

/-- `sanitizeFilename(chat.title)`, the `dirName` computed at the top of
`extractSingleChat`. -/
def destDirName (chat : Chat) : String :=
  sanitizeFilename chat.title

/-- The `fileName` computed at the top of `extractSingleChat`:
`${dirName}.${fileExt}`. -/
def destFileName (chat : Chat) (format : String) : String :=
  destDirName chat ++ "." ++ fileExtFor format

/-- `response?.error || 'No content extracted'` (JavaScript `||` treats
the empty string as falsy). -/
def noContentError (e : Option String) : String :=
  match e with
  | some s => if s = "" then "No content extracted" else s
  | none => "No content extracted"

/-- The part of `extractSingleChat` after the skip check: the
`reportProgress('navigating')` call followed by the `try { navigate;
extract; ... } catch` block.  Returns (result, progress events, invoked
operations). -/
def extractProceed (env : JobEnv) (chat : Chat) (format : String) (index total : Nat) :
    JobResult × List ProgressEvent × List Op :=
  match env.navigate chat.url with
  | Except.error m =>
    ({ title := chat.title, success := false, error := some m },
     [reportProgress (index + 1) total chat.title JobStatus.navigating none,
      reportProgress (index + 1) total chat.title JobStatus.error (some m)],
     [Op.navigate])
  | Except.ok _ =>
    match env.extract format with
    | Except.error m =>
      ({ title := chat.title, success := false, error := some m },
       [reportProgress (index + 1) total chat.title JobStatus.navigating none,
        reportProgress (index + 1) total chat.title JobStatus.error (some m)],
       [Op.navigate, Op.extract])
    | Except.ok resp =>
      match resp with
      | some r =>
        if r.totalChunks ≠ 0 then
          match env.fetchChunks r.totalChunks with
          | Except.error m =>
            ({ title := chat.title, success := false, error := some m },
             [reportProgress (index + 1) total chat.title JobStatus.navigating none,
              reportProgress (index + 1) total chat.title JobStatus.saving none,
              reportProgress (index + 1) total chat.title JobStatus.error (some m)],
             [Op.navigate, Op.extract, Op.fetchChunks])
          | Except.ok content =>
            match env.write (destDirName chat) (destFileName chat format) content with
            | Except.error m =>
              ({ title := chat.title, success := false, error := some m },
               [reportProgress (index + 1) total chat.title JobStatus.navigating none,
                reportProgress (index + 1) total chat.title JobStatus.saving none,
                reportProgress (index + 1) total chat.title JobStatus.error (some m)],
               [Op.navigate, Op.extract, Op.fetchChunks, Op.write])
            | Except.ok wr =>
              ({ title := chat.title, success := wr.success, path := some wr.path,
                 messageCount := some r.messageCount },
               [reportProgress (index + 1) total chat.title JobStatus.navigating none,
                reportProgress (index + 1) total chat.title JobStatus.saving none,
                reportProgress (index + 1) total chat.title JobStatus.done none],
               [Op.navigate, Op.extract, Op.fetchChunks, Op.write])
        else
          ({ title := chat.title, success := false,
             error := some (noContentError r.error) },
           [reportProgress (index + 1) total chat.title JobStatus.navigating none,
            reportProgress (index + 1) total chat.title JobStatus.error
              (some (noContentError r.error))],
           [Op.navigate, Op.extract])
      | none =>
        ({ title := chat.title, success := false,
           error := some (noContentError none) },
         [reportProgress (index + 1) total chat.title JobStatus.navigating none,
          reportProgress (index + 1) total chat.title JobStatus.error
            (some (noContentError none))],
         [Op.navigate, Op.extract])

/-- `extractSingleChat(tabId, chat, format, index, total)`: the
skip-if-exists pre-check (whose own failure is swallowed and treated as
"does not exist") followed by `extractProceed`. -/
def extractSingleChat (env : JobEnv) (chat : Chat) (format : String) (index total : Nat) :
    JobResult × List ProgressEvent × List Op :=
  match env.checkExists (destDirName chat) (destFileName chat format) with
  | Except.ok er =>
    if er.found then
      ({ title := chat.title, success := true, skipped := some true,
         path := some er.path },
       [reportProgress (index + 1) total chat.title JobStatus.skipped none],
       [Op.checkExists])
    else
      ((extractProceed env chat format index total).1,
       (extractProceed env chat format index total).2.1,
       Op.checkExists :: (extractProceed env chat format index total).2.2)
  | Except.error _ =>
    ((extractProceed env chat format index total).1,
     (extractProceed env chat format index total).2.1,
     Op.checkExists :: (extractProceed env chat format index total).2.2)

/-- `WINDOW_SIZE` from `src/background.js`. -/
def WINDOW_SIZE : Nat := 4

/-- One job of the batch as run by `batchExtract`'s inner loop:
`extractSingleChat(tabId, chats[i], format, i, chats.length)`. -/
def jobOf (envs : Nat → JobEnv) (chats : List Chat) (format : String) (i : Nat) :
    JobResult × List ProgressEvent × List Op :=
  extractSingleChat (envs i) (chats.getD i default) format i chats.length

/-- `batchExtract`'s window loop, from `windowStart` on.  Returns the
accumulated `results`, the concatenated progress-event stream, and a
trace recording each processed job index (`some i`) and each attempted
inter-window context reset (`none`, the best-effort navigation to the
blank page, whose own failure the source swallows). -/
def batchLoop (envs : Nat → JobEnv) (chats : List Chat) (format : String)
    (windowStart : Nat) : List JobResult × List ProgressEvent × List (Option Nat) :=
  if h : windowStart < chats.length then
    ((List.range' windowStart (min (windowStart + WINDOW_SIZE) chats.length - windowStart)).map
        (fun i => (jobOf envs chats format i).1)
      ++ (batchLoop envs chats format (min (windowStart + WINDOW_SIZE) chats.length)).1,
     (List.range' windowStart (min (windowStart + WINDOW_SIZE) chats.length - windowStart)).flatMap
        (fun i => (jobOf envs chats format i).2.1)
      ++ (batchLoop envs chats format (min (windowStart + WINDOW_SIZE) chats.length)).2.1,
     (List.range' windowStart (min (windowStart + WINDOW_SIZE) chats.length - windowStart)).map some
      ++ (if min (windowStart + WINDOW_SIZE) chats.length < chats.length then [none] else [])
      ++ (batchLoop envs chats format (min (windowStart + WINDOW_SIZE) chats.length)).2.2)
  else ([], [], [])
termination_by chats.length - windowStart
decreasing_by all_goals simp only [WINDOW_SIZE]; omega

/-- `batchExtract(tabId, chats, format)` from `src/background.js`. -/
def batchExtract (envs : Nat → JobEnv) (chats : List Chat) (format : String) :
    List JobResult × List ProgressEvent × List (Option Nat) :=
  batchLoop envs chats format 0

/-! ## Properties of the sanitization passes -/

/-- No adjacent pair of hyphens occurs in the list. -/
def noAdjHyphens : List Char → Bool
  | [] => true
  | [_] => true
  | a :: b :: rest => !(a == '-' && b == '-') && noAdjHyphens (b :: rest)

lemma noAdjHyphens_cons_cons {a b : Char} {l : List Char} :
    noAdjHyphens (a :: b :: l) = (!(a == '-' && b == '-') && noAdjHyphens (b :: l)) :=
  rfl

lemma noAdjHyphens_tail {c : Char} {l : List Char}
    (h : noAdjHyphens (c :: l) = true) : noAdjHyphens l = true := by
  cases l with
  | nil => rfl
  | cons b r =>
    rw [noAdjHyphens_cons_cons, Bool.and_eq_true] at h
    exact h.2

lemma noAdjHyphens_head {b : Char} {l : List Char}
    (h : noAdjHyphens ('-' :: b :: l) = true) : b ≠ '-' := by
  rw [noAdjHyphens_cons_cons, Bool.and_eq_true] at h
  intro hb
  subst hb
  simp at h

lemma noAdjHyphens_dropLast : ∀ {l : List Char},
    noAdjHyphens l = true → noAdjHyphens l.dropLast = true := by
  intro l
  induction l with
  | nil => intro _; rfl
  | cons a r ih =>
    intro h
    cases r with
    | nil => rfl
    | cons b r2 =>
      cases r2 with
      | nil => rfl
      | cons e r3 =>
        have hr : noAdjHyphens ((b :: e :: r3).dropLast) = true :=
          ih (noAdjHyphens_tail h)
        have h1 : (!(a == '-' && b == '-')) = true := by
          rw [noAdjHyphens_cons_cons, Bool.and_eq_true] at h
          exact h.1
        show noAdjHyphens (a :: (b :: e :: r3).dropLast) = true
        have hshape : (b :: e :: r3).dropLast = b :: (e :: r3).dropLast := rfl
        rw [hshape] at hr ⊢
        rw [noAdjHyphens_cons_cons, Bool.and_eq_true]
        exact ⟨h1, hr⟩

lemma noAdjHyphens_take : ∀ {l : List Char} (n : Nat),
    noAdjHyphens l = true → noAdjHyphens (l.take n) = true := by
  intro l
  induction l with
  | nil => intro n _; simp [noAdjHyphens]
  | cons a r ih =>
    intro n h
    cases n with
    | zero => rfl
    | succ m =>
      cases r with
      | nil => cases m <;> rfl
      | cons b r2 =>
        cases m with
        | zero => rfl
        | succ k =>
          have hr : noAdjHyphens ((b :: r2).take (k + 1)) = true :=
            ih (k + 1) (noAdjHyphens_tail h)
          have h1 : (!(a == '-' && b == '-')) = true := by
            rw [noAdjHyphens_cons_cons, Bool.and_eq_true] at h
            exact h.1
          rw [List.take_succ_cons] at hr ⊢
          rw [List.take_succ_cons, noAdjHyphens_cons_cons, Bool.and_eq_true]
          exact ⟨h1, hr⟩

lemma spacesToHyphensAux_cons (b : Bool) (d : Char) (ds : List Char) :
    spacesToHyphensAux b (d :: ds) =
      if isJsSpace d then
        (if b then spacesToHyphensAux true ds else '-' :: spacesToHyphensAux true ds)
      else d :: spacesToHyphensAux false ds := by
  cases b <;> rfl

lemma spacesToHyphensAux_not_space : ∀ (l : List Char) (b : Bool) (c : Char),
    c ∈ spacesToHyphensAux b l → isJsSpace c = false := by
  intro l
  induction l with
  | nil => intro b c h; simp [spacesToHyphensAux] at h
  | cons d ds ih =>
    intro b c h
    rw [spacesToHyphensAux_cons] at h
    by_cases hs : isJsSpace d
    · rw [if_pos hs] at h
      cases b with
      | true => exact ih true c (by simpa using h)
      | false =>
        simp only [Bool.false_eq_true, if_false, List.mem_cons] at h
        rcases h with rfl | h
        · decide
        · exact ih true c h
    · rw [if_neg hs] at h
      rcases List.mem_cons.mp h with rfl | h
      · simpa using hs
      · exact ih false c h

lemma spacesToHyphensAux_mem : ∀ (l : List Char) (b : Bool) (c : Char),
    c ∈ spacesToHyphensAux b l → c = '-' ∨ c ∈ l := by
  intro l
  induction l with
  | nil => intro b c h; simp [spacesToHyphensAux] at h
  | cons d ds ih =>
    intro b c h
    rw [spacesToHyphensAux_cons] at h
    by_cases hs : isJsSpace d
    · rw [if_pos hs] at h
      have h' : c = '-' ∨ c ∈ spacesToHyphensAux true ds := by
        cases b with
        | true => exact Or.inr (by simpa using h)
        | false =>
          simp only [Bool.false_eq_true, if_false, List.mem_cons] at h
          exact h
      rcases h' with rfl | h'
      · exact Or.inl rfl
      · rcases ih true c h' with h'' | h''
        · exact Or.inl h''
        · exact Or.inr (List.mem_cons_of_mem _ h'')
    · rw [if_neg hs] at h
      rcases List.mem_cons.mp h with rfl | h
      · exact Or.inr (List.mem_cons_self _ _)
      · rcases ih false c h with h'' | h''
        · exact Or.inl h''
        · exact Or.inr (List.mem_cons_of_mem _ h'')

lemma spacesToHyphensAux_id : ∀ (l : List Char) (b : Bool),
    (∀ c ∈ l, isJsSpace c = false) → spacesToHyphensAux b l = l := by
  intro l
  induction l with
  | nil => intro b _; rfl
  | cons d ds ih =>
    intro b h
    have hd : isJsSpace d = false := h d (List.mem_cons_self _ _)
    rw [spacesToHyphensAux_cons, if_neg (by simp [hd])]
    exact congrArg (d :: ·) (ih false fun c hc => h c (List.mem_cons_of_mem _ hc))

lemma collapseHyphensAux_cons (b : Bool) (d : Char) (ds : List Char) :
    collapseHyphensAux b (d :: ds) =
      if d = '-' then
        (if b then collapseHyphensAux true ds else '-' :: collapseHyphensAux true ds)
      else d :: collapseHyphensAux false ds := by
  cases b <;> rfl

lemma collapseHyphensAux_mem : ∀ (l : List Char) (b : Bool) (c : Char),
    c ∈ collapseHyphensAux b l → c = '-' ∨ c ∈ l := by
  intro l
  induction l with
  | nil => intro b c h; simp [collapseHyphensAux] at h
  | cons d ds ih =>
    intro b c h
    rw [collapseHyphensAux_cons] at h
    by_cases hd : d = '-'
    · rw [if_pos hd] at h
      have h' : c = '-' ∨ c ∈ collapseHyphensAux true ds := by
        cases b with
        | true => exact Or.inr (by simpa using h)
        | false =>
          simp only [Bool.false_eq_true, if_false, List.mem_cons] at h
          exact h
      rcases h' with rfl | h'
      · exact Or.inl rfl
      · rcases ih true c h' with h'' | h''
        · exact Or.inl h''
        · exact Or.inr (List.mem_cons_of_mem _ h'')
    · rw [if_neg hd] at h
      rcases List.mem_cons.mp h with rfl | h
      · exact Or.inr (List.mem_cons_self _ _)
      · rcases ih false c h with h'' | h''
        · exact Or.inl h''
        · exact Or.inr (List.mem_cons_of_mem _ h'')

lemma collapseHyphensAux_noAdj : ∀ (l : List Char),
    (noAdjHyphens (collapseHyphensAux true l) = true
      ∧ (collapseHyphensAux true l).head? ≠ some '-')
    ∧ noAdjHyphens (collapseHyphensAux false l) = true := by
  intro l
  induction l with
  | nil => exact ⟨⟨rfl, by simp [collapseHyphensAux]⟩, rfl⟩
  | cons d ds ih =>
    by_cases hd : d = '-'
    · subst hd
      refine ⟨⟨?_, ?_⟩, ?_⟩
      · rw [collapseHyphensAux_cons, if_pos rfl, if_pos rfl]
        exact ih.1.1
      · rw [collapseHyphensAux_cons, if_pos rfl, if_pos rfl]
        exact ih.1.2
      · rw [collapseHyphensAux_cons, if_pos rfl, if_neg (by simp)]
        cases hh : collapseHyphensAux true ds with
        | nil => rfl
        | cons b r =>
          have hb : b ≠ '-' := by
            have hx := ih.1.2
            rw [hh] at hx
            simpa using hx
          have hn : noAdjHyphens (b :: r) = true := by
            have hx := ih.1.1
            rwa [hh] at hx
          rw [noAdjHyphens_cons_cons, Bool.and_eq_true]
          exact ⟨by simp [hb], hn⟩
    · have hfalse : noAdjHyphens (d :: collapseHyphensAux false ds) = true := by
        cases hh : collapseHyphensAux false ds with
        | nil => rfl
        | cons b r =>
          have hn : noAdjHyphens (b :: r) = true := by
            have hx := ih.2
            rwa [hh] at hx
          rw [noAdjHyphens_cons_cons, Bool.and_eq_true]
          refine ⟨by simp [hd], hn⟩
      refine ⟨⟨?_, ?_⟩, ?_⟩
      · rw [collapseHyphensAux_cons, if_neg hd]
        exact hfalse
      · rw [collapseHyphensAux_cons, if_neg hd]
        simpa using hd
      · rw [collapseHyphensAux_cons, if_neg hd]
        exact hfalse

lemma collapseHyphensAux_id : ∀ (l : List Char),
    (noAdjHyphens l = true → collapseHyphensAux false l = l)
    ∧ (noAdjHyphens l = true → l.head? ≠ some '-' → collapseHyphensAux true l = l) := by
  intro l
  induction l with
  | nil => exact ⟨fun _ => rfl, fun _ _ => rfl⟩
  | cons d ds ih =>
    constructor
    · intro h
      by_cases hd : d = '-'
      · subst hd
        rw [collapseHyphensAux_cons, if_pos rfl, if_neg (by simp)]
        refine congrArg ('-' :: ·) (ih.2 (noAdjHyphens_tail h) ?_)
        cases ds with
        | nil => simp
        | cons b r => simpa using noAdjHyphens_head h
      · rw [collapseHyphensAux_cons, if_neg hd]
        exact congrArg (d :: ·) (ih.1 (noAdjHyphens_tail h))
    · intro h hhead
      have hd : d ≠ '-' := by simpa using hhead
      rw [collapseHyphensAux_cons, if_neg hd]
      exact congrArg (d :: ·) (ih.1 (noAdjHyphens_tail h))

lemma trimLeadHyphen_cons (c : Char) (rest : List Char) :
    trimLeadHyphen (c :: rest) = if c = '-' then rest else c :: rest := rfl

lemma trimLeadHyphen_sublist (l : List Char) : (trimLeadHyphen l).Sublist l := by
  cases l with
  | nil => exact List.Sublist.refl _
  | cons c rest =>
    rw [trimLeadHyphen_cons]
    by_cases hc : c = '-'
    · rw [if_pos hc]
      exact List.sublist_cons_self _ _
    · rw [if_neg hc]

lemma trimTrailHyphen_sublist (l : List Char) : (trimTrailHyphen l).Sublist l := by
  unfold trimTrailHyphen
  by_cases hg : l.getLast? = some '-'
  · rw [if_pos hg]
    exact List.dropLast_sublist l
  · rw [if_neg hg]

lemma trimLeadHyphen_head {l : List Char} (h : noAdjHyphens l = true) :
    (trimLeadHyphen l).head? ≠ some '-' := by
  cases l with
  | nil => simp [trimLeadHyphen]
  | cons c rest =>
    rw [trimLeadHyphen_cons]
    by_cases hc : c = '-'
    · subst hc
      rw [if_pos rfl]
      cases rest with
      | nil => simp
      | cons b r => simpa using noAdjHyphens_head h
    · rw [if_neg hc]
      simpa using hc

lemma trimLeadHyphen_noAdj {l : List Char} (h : noAdjHyphens l = true) :
    noAdjHyphens (trimLeadHyphen l) = true := by
  cases l with
  | nil => exact h
  | cons c rest =>
    rw [trimLeadHyphen_cons]
    by_cases hc : c = '-'
    · rw [if_pos hc]
      exact noAdjHyphens_tail h
    · rw [if_neg hc]
      exact h

lemma trimTrailHyphen_noAdj {l : List Char} (h : noAdjHyphens l = true) :
    noAdjHyphens (trimTrailHyphen l) = true := by
  unfold trimTrailHyphen
  by_cases hg : l.getLast? = some '-'
  · rw [if_pos hg]
    exact noAdjHyphens_dropLast h
  · rw [if_neg hg]
    exact h

lemma trimTrailHyphen_head {l : List Char} (h : l.head? ≠ some '-') :
    (trimTrailHyphen l).head? ≠ some '-' := by
  unfold trimTrailHyphen
  by_cases hg : l.getLast? = some '-'
  · rw [if_pos hg]
    cases l with
    | nil => simp
    | cons a r =>
      cases r with
      | nil => simp
      | cons b r2 =>
        have : (a :: b :: r2).dropLast = a :: (b :: r2).dropLast := rfl
        rw [this]
        simpa using h
  · rw [if_neg hg]
    exact h

lemma head?_take {l : List Char} {n : Nat} (hn : 0 < n) :
    (l.take n).head? = l.head? := by
  cases l with
  | nil => simp
  | cons a r =>
    cases n with
    | zero => omega
    | succ m => simp [List.take_succ_cons]

lemma trimLeadHyphen_id {l : List Char} (h : l.head? ≠ some '-') :
    trimLeadHyphen l = l := by
  cases l with
  | nil => rfl
  | cons c rest =>
    have hc : c ≠ '-' := by simpa using h
    rw [trimLeadHyphen_cons, if_neg hc]

lemma trimTrailHyphen_id {l : List Char} (h : l.getLast? ≠ some '-') :
    trimTrailHyphen l = l := by
  unfold trimTrailHyphen
  rw [if_neg h]

/-! ## C4: sanitization — determinism, idempotence, fallback

`sanitizeFilename` is a pure function, so determinism (same title, same
name) is immediate.  Idempotence as claimed is false: trimming runs
before the 60-unit truncation, so truncation can re-expose a trailing
hyphen which a second application removes.  It is idempotent exactly
when the sanitized form does not end in a hyphen. -/

/-- A 61-unit title (59 `a`s, a space, `b`) whose sanitized form is 59
`a`s followed by the hyphen the space became, cut to 60 units just
after that hyphen. -/
def hyphenEdgeTitle : String := String.mk (List.replicate 59 'a' ++ [' ', 'b'])

/-- **C4 counterexample.** `sanitizeFilename` is not idempotent: on
`hyphenEdgeTitle` the first application ends in a hyphen (trimming
happens before `substring(0, 60)`), and the second application trims
that hyphen away. -/
theorem sanitizeFilename_not_idempotent :
    sanitizeFilename (sanitizeFilename hyphenEdgeTitle) ≠ sanitizeFilename hyphenEdgeTitle
    ∧ sanitizeFilename hyphenEdgeTitle = String.mk (List.replicate 59 'a' ++ ['-'])
    ∧ sanitizeFilename (sanitizeFilename hyphenEdgeTitle) = String.mk (List.replicate 59 'a') := by
  refine ⟨?_, by decide, by decide⟩
  decide

/-- **C4 (amended).** `sanitizeFilename` is deterministic (it is a pure
function of the title); it is idempotent on every title whose sanitized
form does not end in a hyphen; and a title consisting only of illegal
characters sanitizes to the fallback `"Untitled"`. -/
theorem sanitizeFilename_conditional_idempotent (x : String) :
    ((sanitizeFilename x).data.getLast? ≠ some '-' →
      sanitizeFilename (sanitizeFilename x) = sanitizeFilename x)
    ∧ ((∀ c ∈ x.data, isIllegalChar c = true) → sanitizeFilename x = "Untitled") := by
  constructor
  · intro hlast
    by_cases hemp :
        ((trimHyphens (collapseHyphens (spacesToHyphens (stripIllegal x.data)))).take 60).isEmpty
    · have hy : sanitizeFilename x = "Untitled" := by
        unfold sanitizeFilename
        rw [if_pos hemp]
      rw [hy]
      decide
    · set s0 := stripIllegal x.data with hs0
      set s1 := spacesToHyphens s0 with hs1
      set s2 := collapseHyphens s1 with hs2
      set s3 := trimHyphens s2 with hs3
      set t := s3.take 60 with ht
      have hy : sanitizeFilename x = String.mk t := by
        unfold sanitizeFilename
        rw [if_neg hemp]
      -- every character of `t` comes from `s2`
      have hsub3 : s3.Sublist s2 := by
        rw [hs3]
        unfold trimHyphens
        exact (trimTrailHyphen_sublist _).trans (trimLeadHyphen_sublist _)
      have hsubt : t.Sublist s2 := (List.take_sublist 60 s3).trans hsub3
      -- P1: no illegal characters in `t`
      have hP1 : ∀ c ∈ t, isIllegalChar c = false := by
        intro c hc
        have hc2 : c ∈ s2 := hsubt.mem hc
        rcases collapseHyphensAux_mem s1 false c hc2 with rfl | hc1
        · decide
        · rcases spacesToHyphensAux_mem s0 false c hc1 with rfl | hc0
          · decide
          · have := (List.mem_filter.mp hc0).2
            simpa using this
      -- P2: no whitespace in `t`
      have hP2 : ∀ c ∈ t, isJsSpace c = false := by
        intro c hc
        have hc2 : c ∈ s2 := hsubt.mem hc
        rcases collapseHyphensAux_mem s1 false c hc2 with rfl | hc1
        · decide
        · exact spacesToHyphensAux_not_space s0 false c hc1
      -- P3: no adjacent hyphens in `t`
      have hn2 : noAdjHyphens s2 = true := (collapseHyphensAux_noAdj s1).2
      have hn3 : noAdjHyphens s3 = true := by
        rw [hs3]
        unfold trimHyphens
        exact trimTrailHyphen_noAdj (trimLeadHyphen_noAdj hn2)
      have hP3 : noAdjHyphens t = true := noAdjHyphens_take 60 hn3
      -- P4: `t` does not start with a hyphen
      have hh3 : s3.head? ≠ some '-' := by
        rw [hs3]
        unfold trimHyphens
        exact trimTrailHyphen_head (trimLeadHyphen_head hn2)
      have hP4 : t.head? ≠ some '-' := by
        rw [ht, head?_take (by omega)]
        exact hh3
      -- H: `t` does not end with a hyphen (the amended hypothesis)
      have hH : t.getLast? ≠ some '-' := by
        rw [hy] at hlast
        exact hlast
      -- the second application leaves `t` unchanged at every stage
      have e1 : stripIllegal t = t := by
        unfold stripIllegal
        refine List.filter_eq_self.mpr ?_
        intro c hc
        simp [hP1 c hc]
      have e2 : spacesToHyphens t = t := spacesToHyphensAux_id t false hP2
      have e3 : collapseHyphens t = t := (collapseHyphensAux_id t).1 hP3
      have e4 : trimHyphens t = t := by
        unfold trimHyphens
        rw [trimLeadHyphen_id hP4, trimTrailHyphen_id hH]
      have e5 : t.take 60 = t := by
        refine List.take_of_length_le ?_
        rw [ht]
        calc (s3.take 60).length = min 60 s3.length := List.length_take 60 s3
        _ ≤ 60 := Nat.min_le_left _ _
      rw [hy]
      unfold sanitizeFilename
      rw [show (String.mk t).data = t from rfl, e1, e2, e3, e4, e5, if_neg hemp]
  · intro hill
    have h0 : stripIllegal x.data = [] := by
      unfold stripIllegal
      refine List.filter_eq_nil_iff.mpr ?_
      intro a ha
      simp [hill a ha]
    unfold sanitizeFilename
    rw [h0]
    rfl

/-- Witness for the amended C4 at the concrete title `"<>"`: every
character is illegal, the sanitized form (`"Untitled"`) does not end in
a hyphen, and both conclusions hold there. -/
theorem sanitizeFilename_conditional_idempotent_witness :
    ((sanitizeFilename "<>").data.getLast? ≠ some '-'
      ∧ (∀ c ∈ ("<>" : String).data, isIllegalChar c = true))
    ∧ (sanitizeFilename (sanitizeFilename "<>") = sanitizeFilename "<>"
      ∧ sanitizeFilename "<>" = "Untitled") :=
  ⟨⟨by decide, by decide⟩,
   ⟨(sanitizeFilename_conditional_idempotent "<>").1 (by decide),
    (sanitizeFilename_conditional_idempotent "<>").2 (by decide)⟩⟩

/-! ## C9, C10, C5: native host properties -/

/-- **C9.** `sanitizeFilename` is not injective: the distinct titles
`"a b"` and `"a-b"` sanitize to the same destination name, and since
`writeFile` overwrites whatever is at the path, the later of two such
jobs silently replaces the earlier job's file (the orchestrator derives
both `dirName` and `fileName` from the sanitized title alone). -/
theorem sanitize_collision_overwrites :
    ("a b" : String) ≠ "a-b"
    ∧ sanitizeFilename "a b" = sanitizeFilename "a-b"
    ∧ (let dir1 := sanitizeFilename "a b"
       let dir2 := sanitizeFilename "a-b"
       let st1 := (handleMessage fsOk {} (Msg.write dir1 (dir1 ++ ".md") "first chat")).1
       let st2 := (handleMessage fsOk st1 (Msg.write dir2 (dir2 ++ ".md") "second chat")).1
       alistLookup (filePath dir1 (dir1 ++ ".md")) st2.fs = some "second chat") := by
  exact ⟨by decide, by decide, by decide⟩

/-- **C10.** The native host's `handleMessage` is total: it always
returns a response (in the model, by construction), a failing response
always carries an error message, an unknown action yields
`success == false` with an error naming the action, and an exception
thrown while handling `write`, a final `writeChunk`, or `checkExists`
is caught and converted into `success == false` with the exception's
message. -/
theorem handleMessage_total (env : FsEnv) (st : HostState) :
    (∀ msg, (handleMessage env st msg).2.success = false →
      (handleMessage env st msg).2.error ≠ none)
    ∧ (∀ a, (handleMessage env st (Msg.unknown a)).2 =
        { success := false, error := some ("Unknown action: " ++ a) })
    ∧ (∀ dn fn content e, env.writeThrows = some e →
        (handleMessage env st (Msg.write dn fn content)).2 =
          { success := false, error := some e })
    ∧ (∀ dn fn data e, env.writeThrows = some e →
        (handleMessage env st (Msg.writeChunk dn fn data true)).2 =
          { success := false, error := some e })
    ∧ (∀ dn fn e, env.existsThrows = some e →
        (handleMessage env st (Msg.checkExists dn fn)).2 =
          { success := false, error := some e }) := by
  refine ⟨?_, ?_, ?_, ?_, ?_⟩
  · intro msg
    cases msg with
    | write dn fn content =>
      cases hw : env.writeThrows with
      | none => simp [handleMessage, handleMessageBody, writeFile, hw]
      | some e => simp [handleMessage, handleMessageBody, writeFile, hw]
    | writeChunk dn fn data final =>
      cases final with
      | false => simp [handleMessage, handleMessageBody]
      | true =>
        cases hw : env.writeThrows with
        | none => simp [handleMessage, handleMessageBody, writeFile, hw]
        | some e => simp [handleMessage, handleMessageBody, writeFile, hw]
    | checkExists dn fn =>
      cases hx : env.existsThrows with
      | none => simp [handleMessage, handleMessageBody, hx]
      | some e => simp [handleMessage, handleMessageBody, hx]
    | unknown a => simp [handleMessage, handleMessageBody]
  · intro a
    rfl
  · intro dn fn content e hw
    simp [handleMessage, handleMessageBody, writeFile, hw]
  · intro dn fn data e hw
    simp [handleMessage, handleMessageBody, writeFile, hw]
  · intro dn fn e hx
    simp [handleMessage, handleMessageBody, hx]

/-- Witness for C10 at a concrete throwing environment and concrete
messages. -/
theorem handleMessage_total_witness :
    (({ writeThrows := some "disk full", existsThrows := some "EACCES" } : FsEnv).writeThrows
        = some "disk full"
      ∧ ({ writeThrows := some "disk full", existsThrows := some "EACCES" } : FsEnv).existsThrows
        = some "EACCES")
    ∧ ((handleMessage { writeThrows := some "disk full", existsThrows := some "EACCES" } {}
          (Msg.unknown "frobnicate")).2 =
        { success := false, error := some ("Unknown action: " ++ "frobnicate") }
      ∧ (handleMessage { writeThrows := some "disk full", existsThrows := some "EACCES" } {}
          (Msg.write "d" "f.md" "x")).2 =
        { success := false, error := some "disk full" }
      ∧ (handleMessage { writeThrows := some "disk full", existsThrows := some "EACCES" } {}
          (Msg.writeChunk "d" "f.md" "x" true)).2 =
        { success := false, error := some "disk full" }
      ∧ (handleMessage { writeThrows := some "disk full", existsThrows := some "EACCES" } {}
          (Msg.checkExists "d" "f.md")).2 =
        { success := false, error := some "EACCES" }) :=
  ⟨⟨rfl, rfl⟩,
   (handleMessage_total { writeThrows := some "disk full", existsThrows := some "EACCES" } {}).2.1
      "frobnicate",
   (handleMessage_total { writeThrows := some "disk full", existsThrows := some "EACCES" } {}).2.2.1
      "d" "f.md" "x" "disk full" rfl,
   (handleMessage_total { writeThrows := some "disk full", existsThrows := some "EACCES" } {}).2.2.2.1
      "d" "f.md" "x" "disk full" rfl,
   (handleMessage_total { writeThrows := some "disk full", existsThrows := some "EACCES" } {}).2.2.2.2
      "d" "f.md" "EACCES" rfl⟩

/-- **C5 (bug witness).** The chunked-transfer round trip fails for
every K ≥ 2: `chunkStore` lives in the host process's memory, and
`main()` reads exactly one message and exits, so each `writeChunk`
message is served by a fresh process with an empty buffer.  Delivering
the partition `["he", "llo"]` of `"hello"` gets the non-final chunk
accumulated (and acknowledged with `chunk_received`) by a process that
then exits and discards it; the final chunk arrives at a fresh process
and only `"llo"` is written.  Only the K = 1 delivery reconstructs the
string. -/
theorem chunked_transfer_loses_prefix :
    alistLookup (filePath "d" "f.md")
        (runChunks fsOk "d" "f.md" [] ["he", "llo"]) = some "llo"
    ∧ String.join ["he", "llo"] = "hello"
    ∧ (("llo" : String) ≠ "hello")
    ∧ (hostInvocation fsOk [] (Msg.writeChunk "d" "f.md" "he" false)).2
        = { success := true, status := some "chunk_received" }
    ∧ alistLookup (filePath "d" "f.md")
        (runChunks fsOk "d" "f.md" [] ["hello"]) = some "hello" :=
  ⟨by decide, by decide, by decide, by decide, by decide⟩

/-! ## Branch equations for `extractProceed` / `extractSingleChat` -/

lemma extractProceed_nav_error {env : JobEnv} {chat : Chat} {m : String}
    (format : String) (index total : Nat)
    (hn : env.navigate chat.url = Except.error m) :
    extractProceed env chat format index total =
      ({ title := chat.title, success := false, error := some m },
       [reportProgress (index + 1) total chat.title JobStatus.navigating none,
        reportProgress (index + 1) total chat.title JobStatus.error (some m)],
       [Op.navigate]) := by
  unfold extractProceed
  rw [hn]

lemma extractProceed_extract_error {env : JobEnv} {chat : Chat} {m : String}
    (format : String) (index total : Nat)
    (hn : env.navigate chat.url = Except.ok ())
    (hx : env.extract format = Except.error m) :
    extractProceed env chat format index total =
      ({ title := chat.title, success := false, error := some m },
       [reportProgress (index + 1) total chat.title JobStatus.navigating none,
        reportProgress (index + 1) total chat.title JobStatus.error (some m)],
       [Op.navigate, Op.extract]) := by
  unfold extractProceed
  rw [hn, hx]

lemma extractProceed_no_response {env : JobEnv} {chat : Chat}
    (format : String) (index total : Nat)
    (hn : env.navigate chat.url = Except.ok ())
    (hx : env.extract format = Except.ok none) :
    extractProceed env chat format index total =
      ({ title := chat.title, success := false, error := some (noContentError none) },
       [reportProgress (index + 1) total chat.title JobStatus.navigating none,
        reportProgress (index + 1) total chat.title JobStatus.error
          (some (noContentError none))],
       [Op.navigate, Op.extract]) := by
  unfold extractProceed
  rw [hn, hx]

lemma extractProceed_no_chunks {env : JobEnv} {chat : Chat} {r : ExtractResponse}
    (format : String) (index total : Nat)
    (hn : env.navigate chat.url = Except.ok ())
    (hx : env.extract format = Except.ok (some r))
    (ht : r.totalChunks = 0) :
    extractProceed env chat format index total =
      ({ title := chat.title, success := false, error := some (noContentError r.error) },
       [reportProgress (index + 1) total chat.title JobStatus.navigating none,
        reportProgress (index + 1) total chat.title JobStatus.error
          (some (noContentError r.error))],
       [Op.navigate, Op.extract]) := by
  unfold extractProceed
  rw [hn, hx]
  simp [ht]

lemma extractProceed_fetch_error {env : JobEnv} {chat : Chat} {r : ExtractResponse}
    {m : String} (format : String) (index total : Nat)
    (hn : env.navigate chat.url = Except.ok ())
    (hx : env.extract format = Except.ok (some r))
    (ht : r.totalChunks ≠ 0)
    (hf : env.fetchChunks r.totalChunks = Except.error m) :
    extractProceed env chat format index total =
      ({ title := chat.title, success := false, error := some m },
       [reportProgress (index + 1) total chat.title JobStatus.navigating none,
        reportProgress (index + 1) total chat.title JobStatus.saving none,
        reportProgress (index + 1) total chat.title JobStatus.error (some m)],
       [Op.navigate, Op.extract, Op.fetchChunks]) := by
  simp only [extractProceed, hn, hx]
  rw [if_pos ht]
  simp only [hf]

lemma extractProceed_write_error {env : JobEnv} {chat : Chat} {r : ExtractResponse}
    {content m : String} (format : String) (index total : Nat)
    (hn : env.navigate chat.url = Except.ok ())
    (hx : env.extract format = Except.ok (some r))
    (ht : r.totalChunks ≠ 0)
    (hf : env.fetchChunks r.totalChunks = Except.ok content)
    (hw : env.write (destDirName chat) (destFileName chat format) content
        = Except.error m) :
    extractProceed env chat format index total =
      ({ title := chat.title, success := false, error := some m },
       [reportProgress (index + 1) total chat.title JobStatus.navigating none,
        reportProgress (index + 1) total chat.title JobStatus.saving none,
        reportProgress (index + 1) total chat.title JobStatus.error (some m)],
       [Op.navigate, Op.extract, Op.fetchChunks, Op.write]) := by
  simp only [extractProceed, hn, hx]
  rw [if_pos ht]
  simp only [hf, hw]

lemma extractProceed_write_ok {env : JobEnv} {chat : Chat} {r : ExtractResponse}
    {content : String} {wr : WriteResult} (format : String) (index total : Nat)
    (hn : env.navigate chat.url = Except.ok ())
    (hx : env.extract format = Except.ok (some r))
    (ht : r.totalChunks ≠ 0)
    (hf : env.fetchChunks r.totalChunks = Except.ok content)
    (hw : env.write (destDirName chat) (destFileName chat format) content
        = Except.ok wr) :
    extractProceed env chat format index total =
      ({ title := chat.title, success := wr.success, path := some wr.path,
         messageCount := some r.messageCount },
       [reportProgress (index + 1) total chat.title JobStatus.navigating none,
        reportProgress (index + 1) total chat.title JobStatus.saving none,
        reportProgress (index + 1) total chat.title JobStatus.done none],
       [Op.navigate, Op.extract, Op.fetchChunks, Op.write]) := by
  simp only [extractProceed, hn, hx]
  rw [if_pos ht]
  simp only [hf, hw]

lemma extractSingleChat_skip {env : JobEnv} {chat : Chat} {er : ExistsResult}
    (format : String) (index total : Nat)
    (hce : env.checkExists (destDirName chat) (destFileName chat format)
        = Except.ok er)
    (hf : er.found = true) :
    extractSingleChat env chat format index total =
      ({ title := chat.title, success := true, skipped := some true,
         path := some er.path },
       [reportProgress (index + 1) total chat.title JobStatus.skipped none],
       [Op.checkExists]) := by
  unfold extractSingleChat
  rw [hce]
  simp [hf]

lemma extractSingleChat_noskip {env : JobEnv} {chat : Chat} {er : ExistsResult}
    (format : String) (index total : Nat)
    (hce : env.checkExists (destDirName chat) (destFileName chat format)
        = Except.ok er)
    (hf : er.found = false) :
    extractSingleChat env chat format index total =
      ((extractProceed env chat format index total).1,
       (extractProceed env chat format index total).2.1,
       Op.checkExists :: (extractProceed env chat format index total).2.2) := by
  unfold extractSingleChat
  rw [hce]
  simp [hf]

lemma extractSingleChat_checkfail {env : JobEnv} {chat : Chat} {e : String}
    (format : String) (index total : Nat)
    (hce : env.checkExists (destDirName chat) (destFileName chat format)
        = Except.error e) :
    extractSingleChat env chat format index total =
      ((extractProceed env chat format index total).1,
       (extractProceed env chat format index total).2.1,
       Op.checkExists :: (extractProceed env chat format index total).2.2) := by
  unfold extractSingleChat
  rw [hce]

/-! ## C2: the JobResult success/error invariant -/

/-- A job environment in which every step succeeds but the native
host's `write` round trip *resolves* with `{success: false}` (the
host's own `catch` turns a disk error into a response rather than a
rejection). -/
def writeRefusedEnv : JobEnv where
  checkExists := fun _ _ => Except.ok { found := false, path := "" }
  navigate := fun _ => Except.ok ()
  extract := fun _ => Except.ok (some { totalChunks := 1, error := none, messageCount := 5 })
  fetchChunks := fun _ => Except.ok "content"
  write := fun _ _ _ => Except.ok { success := false, path := "BASE_DIR/t/t.md" }

/-- **C2 (bug witness).** When the write round trip resolves with
`{success: false}`, `extractSingleChat` returns
`{title, success: writeResult.success, path, messageCount}` — a failed
`JobResult` carrying **no** error detail, violating the invariant
`success == false → errorDetail present`. -/
theorem jobResult_error_detail_missing :
    (extractSingleChat writeRefusedEnv { title := "t", url := "u" } "markdown" 0 1).1.success
        = false
    ∧ (extractSingleChat writeRefusedEnv { title := "t", url := "u" } "markdown" 0 1).1.error
        = none := by
  exact ⟨rfl, rfl⟩

lemma extractProceed_success_no_error (env : JobEnv) (chat : Chat) (format : String)
    (index total : Nat)
    (h : (extractProceed env chat format index total).1.success = true) :
    (extractProceed env chat format index total).1.error = none := by
  cases hn : env.navigate chat.url with
  | error m => rw [extractProceed_nav_error format index total hn] at h; simp at h
  | ok u =>
    obtain rfl : u = () := rfl
    cases hx : env.extract format with
    | error m => rw [extractProceed_extract_error format index total hn hx] at h; simp at h
    | ok resp =>
      cases resp with
      | none => rw [extractProceed_no_response format index total hn hx] at h; simp at h
      | some r =>
        by_cases ht : r.totalChunks = 0
        · rw [extractProceed_no_chunks format index total hn hx ht] at h; simp at h
        · cases hf : env.fetchChunks r.totalChunks with
          | error m =>
            rw [extractProceed_fetch_error format index total hn hx ht hf] at h
            simp at h
          | ok content =>
            cases hw : env.write (destDirName chat) (destFileName chat format) content with
            | error m =>
              rw [extractProceed_write_error format index total hn hx ht hf hw] at h
              simp at h
            | ok wr =>
              rw [extractProceed_write_ok format index total hn hx ht hf hw]

/-- The half of the C2 invariant that does hold: a successful
`JobResult` never carries an error field (every `success == true` path
omits `error`). -/
theorem jobResult_success_no_error (env : JobEnv) (chat : Chat) (format : String)
    (index total : Nat)
    (h : (extractSingleChat env chat format index total).1.success = true) :
    (extractSingleChat env chat format index total).1.error = none := by
  cases hce : env.checkExists (destDirName chat) (destFileName chat format) with
  | ok er =>
    by_cases hf : er.found = true
    · rw [extractSingleChat_skip format index total hce hf]
    · rw [extractSingleChat_noskip format index total hce (by simpa using hf)] at h ⊢
      exact extractProceed_success_no_error env chat format index total h
  | error e =>
    rw [extractSingleChat_checkfail format index total hce] at h ⊢
    exact extractProceed_success_no_error env chat format index total h

/-! ## C7: skip-if-exists -/

/-- **C7.** If the existence pre-check resolves with `exists == true`,
the job's result is a successful, skipped `JobResult` and the only
operation invoked is the check itself — navigation and extraction never
run.  If the pre-check itself fails, its failure is swallowed: the job
runs the normal extraction pipeline and its outcome is exactly the
pipeline's outcome (the check's failure never fails the job). -/
theorem skip_if_exists (env : JobEnv) (chat : Chat) (format : String) (index total : Nat) :
    (∀ er, env.checkExists (destDirName chat) (destFileName chat format) = Except.ok er →
      er.found = true →
      extractSingleChat env chat format index total =
        ({ title := chat.title, success := true, skipped := some true,
           path := some er.path },
         [reportProgress (index + 1) total chat.title JobStatus.skipped none],
         [Op.checkExists]))
    ∧ (∀ e, env.checkExists (destDirName chat) (destFileName chat format) = Except.error e →
      extractSingleChat env chat format index total =
        ((extractProceed env chat format index total).1,
         (extractProceed env chat format index total).2.1,
         Op.checkExists :: (extractProceed env chat format index total).2.2)) :=
  ⟨fun _ hce hf => extractSingleChat_skip format index total hce hf,
   fun _ hce => extractSingleChat_checkfail format index total hce⟩

/-- A job environment whose existence check reports that the file is
already there; every other operation fails loudly so that invoking it
would be visible. -/
def skipFoundEnv : JobEnv where
  checkExists := fun _ _ => Except.ok { found := true, path := "BASE_DIR/x/x.md" }
  navigate := fun _ => Except.error "never reached"
  extract := fun _ => Except.error "never reached"
  fetchChunks := fun _ => Except.error "never reached"
  write := fun _ _ _ => Except.error "never reached"

/-- A job environment whose existence check itself fails while the
extraction pipeline succeeds. -/
def checkFailEnv : JobEnv where
  checkExists := fun _ _ => Except.error "native host unavailable"
  navigate := fun _ => Except.ok ()
  extract := fun _ => Except.ok (some { totalChunks := 1, error := none, messageCount := 2 })
  fetchChunks := fun _ => Except.ok "body"
  write := fun _ _ _ => Except.ok { success := true, path := "BASE_DIR/x/x.md" }

/-- Witness for C7 at concrete environments: the found case skips with
only the check invoked, and the failed-check case equals the plain
pipeline run. -/
theorem skip_if_exists_witness :
    (skipFoundEnv.checkExists (destDirName { title := "x" })
        (destFileName { title := "x" } "markdown")
        = Except.ok { found := true, path := "BASE_DIR/x/x.md" }
      ∧ checkFailEnv.checkExists (destDirName { title := "x" })
        (destFileName { title := "x" } "markdown")
        = Except.error "native host unavailable")
    ∧ (extractSingleChat skipFoundEnv { title := "x" } "markdown" 0 1 =
        ({ title := "x", success := true, skipped := some true,
           path := some "BASE_DIR/x/x.md" },
         [reportProgress 1 1 "x" JobStatus.skipped none],
         [Op.checkExists])
      ∧ extractSingleChat checkFailEnv { title := "x" } "markdown" 0 1 =
        ((extractProceed checkFailEnv { title := "x" } "markdown" 0 1).1,
         (extractProceed checkFailEnv { title := "x" } "markdown" 0 1).2.1,
         Op.checkExists :: (extractProceed checkFailEnv { title := "x" } "markdown" 0 1).2.2)) :=
  ⟨⟨rfl, rfl⟩,
   (skip_if_exists skipFoundEnv { title := "x" } "markdown" 0 1).1
     { found := true, path := "BASE_DIR/x/x.md" } rfl rfl,
   (skip_if_exists checkFailEnv { title := "x" } "markdown" 0 1).2
     "native host unavailable" rfl⟩

/-! ## C1: one result per job, in order -/

lemma batchLoop_spec (envs : Nat → JobEnv) (chats : List Chat) (format : String) :
    ∀ (n ws : Nat), chats.length - ws ≤ n →
    (batchLoop envs chats format ws).1 =
      (List.range' ws (chats.length - ws)).map (fun i => (jobOf envs chats format i).1)
    ∧ (batchLoop envs chats format ws).2.1 =
      (List.range' ws (chats.length - ws)).flatMap
        (fun i => (jobOf envs chats format i).2.1) := by
  intro n
  induction n with
  | zero =>
    intro ws hle
    have hws : ¬ ws < chats.length := by omega
    rw [batchLoop, dif_neg hws]
    have h0 : chats.length - ws = 0 := by omega
    rw [h0]
    exact ⟨rfl, rfl⟩
  | succ n ih =>
    intro ws hle
    by_cases hws : ws < chats.length
    · have hdec : chats.length - min (ws + WINDOW_SIZE) chats.length ≤ n := by
        simp only [WINDOW_SIZE] at *
        omega
      have hrec := ih (min (ws + WINDOW_SIZE) chats.length) hdec
      rw [batchLoop, dif_pos hws]
      have happ : List.range' ws (min (ws + WINDOW_SIZE) chats.length - ws)
          ++ List.range' (min (ws + WINDOW_SIZE) chats.length)
              (chats.length - min (ws + WINDOW_SIZE) chats.length)
          = List.range' ws (chats.length - ws) := by
        have h1 := List.range'_append ws (min (ws + WINDOW_SIZE) chats.length - ws)
          (chats.length - min (ws + WINDOW_SIZE) chats.length) 1
        rw [show ws + 1 * (min (ws + WINDOW_SIZE) chats.length - ws)
              = min (ws + WINDOW_SIZE) chats.length by
            simp only [WINDOW_SIZE] at *; omega] at h1
        rw [show chats.length - min (ws + WINDOW_SIZE) chats.length
              + (min (ws + WINDOW_SIZE) chats.length - ws)
              = chats.length - ws by
            simp only [WINDOW_SIZE] at *; omega] at h1
        exact h1
      constructor
      · rw [hrec.1, ← List.map_append, happ]
      · rw [hrec.2, ← List.flatMap_append, happ]
    · rw [batchLoop, dif_neg hws]
      have h0 : chats.length - ws = 0 := by omega
      rw [h0]
      exact ⟨rfl, rfl⟩

/-- **C1.** For every job sequence, `batchExtract` returns exactly one
`JobResult` per job, and the i-th result is the result of running
`extractSingleChat` on the i-th job — in submission order, whatever each
job's environment does. -/
theorem batchExtract_one_result_per_job (envs : Nat → JobEnv) (chats : List Chat)
    (format : String) :
    (batchExtract envs chats format).1 =
      (List.range chats.length).map
        (fun i => (extractSingleChat (envs i) (chats.getD i default) format
            i chats.length).1)
    ∧ (batchExtract envs chats format).1.length = chats.length := by
  have h := (batchLoop_spec envs chats format chats.length 0 (by omega)).1
  rw [batchExtract]
  constructor
  · rw [h, List.range_eq_range', Nat.sub_zero]
    rfl
  · rw [h]
    simp

/-! ## C3: per-job failure never aborts the batch -/

/-- The job's pipeline throws (or times out — the 60 s extraction
timeout surfaces as a rejection) with message `m` at navigation,
extraction, chunk fetch, or write. -/
def throwsWith (env : JobEnv) (chat : Chat) (format m : String) : Prop :=
  env.navigate chat.url = Except.error m
  ∨ (env.navigate chat.url = Except.ok () ∧ env.extract format = Except.error m)
  ∨ (env.navigate chat.url = Except.ok ()
      ∧ ∃ r, env.extract format = Except.ok (some r) ∧ r.totalChunks ≠ 0
        ∧ env.fetchChunks r.totalChunks = Except.error m)
  ∨ (env.navigate chat.url = Except.ok ()
      ∧ ∃ r, env.extract format = Except.ok (some r) ∧ r.totalChunks ≠ 0
        ∧ ∃ content, env.fetchChunks r.totalChunks = Except.ok content
          ∧ env.write (destDirName chat) (destFileName chat format) content
              = Except.error m)

lemma extractProceed_throws {env : JobEnv} {chat : Chat} {format m : String}
    (index total : Nat) (h : throwsWith env chat format m) :
    (extractProceed env chat format index total).1 =
      { title := chat.title, success := false, error := some m } := by
  rcases h with hn | ⟨hn, hx⟩ | ⟨hn, r, hx, ht, hf⟩ | ⟨hn, r, hx, ht, c, hf, hw⟩
  · rw [extractProceed_nav_error format index total hn]
  · rw [extractProceed_extract_error format index total hn hx]
  · rw [extractProceed_fetch_error format index total hn hx ht hf]
  · rw [extractProceed_write_error format index total hn hx ht hf hw]

lemma extractSingleChat_throws {env : JobEnv} {chat : Chat} {format m : String}
    (index total : Nat)
    (hns : ∀ er, env.checkExists (destDirName chat) (destFileName chat format)
        = Except.ok er → er.found = false)
    (h : throwsWith env chat format m) :
    (extractSingleChat env chat format index total).1 =
      { title := chat.title, success := false, error := some m } := by
  cases hce : env.checkExists (destDirName chat) (destFileName chat format) with
  | ok er =>
    rw [extractSingleChat_noskip format index total hce (hns er hce)]
    exact extractProceed_throws index total h
  | error e =>
    rw [extractSingleChat_checkfail format index total hce]
    exact extractProceed_throws index total h

/-- **C3.** A job whose pipeline throws (at navigation, extraction,
chunk fetch, or write) is caught at the job boundary: the batch records
a failed `JobResult` carrying the error for that job and still runs
every subsequent job.  In particular, for jobs `[A (fails), B]` the
results are `[failed A, B's own result]`. -/
theorem batch_continues_after_failure (envs : Nat → JobEnv) (A B : Chat)
    (format m : String)
    (hns : ∀ er, (envs 0).checkExists (destDirName A) (destFileName A format)
        = Except.ok er → er.found = false)
    (hthrow : throwsWith (envs 0) A format m) :
    (batchExtract envs [A, B] format).1 =
      [{ title := A.title, success := false, error := some m },
       (extractSingleChat (envs 1) B format 1 2).1] := by
  have h := (batchExtract_one_result_per_job envs [A, B] format).1
  rw [h]
  rw [show List.range ([A, B] : List Chat).length = [0, 1] from rfl]
  simp only [List.map_cons, List.map_nil]
  have hA : (extractSingleChat (envs 0) (([A, B] : List Chat).getD 0 default) format 0
      ([A, B] : List Chat).length).1
      = { title := A.title, success := false, error := some m } :=
    extractSingleChat_throws 0 2 hns hthrow
  rw [hA]
  rfl

/-- Job A's environment: every native/browser call rejects. -/
def envFailA : JobEnv where
  checkExists := fun _ _ => Except.error "host down"
  navigate := fun _ => Except.error "Extraction timed out"
  extract := fun _ => Except.error "Extraction timed out"
  fetchChunks := fun _ => Except.error "Extraction timed out"
  write := fun _ _ _ => Except.error "host down"

/-- Job B's environment: the whole pipeline succeeds. -/
def envOkB : JobEnv where
  checkExists := fun _ _ => Except.ok { found := false, path := "" }
  navigate := fun _ => Except.ok ()
  extract := fun _ => Except.ok (some { totalChunks := 2, error := none, messageCount := 7 })
  fetchChunks := fun _ => Except.ok "content"
  write := fun _ _ _ => Except.ok { success := true, path := "BASE_DIR/B/B.md" }

/-- The per-job environments of the two-job witness batch. -/
def twoJobEnvs : Nat → JobEnv :=
  fun i => if i = 0 then envFailA else envOkB

/-- Witness for C3: a concrete `[A (fails at navigation), B (succeeds)]`
batch yields `[failed, successful]`. -/
theorem batch_continues_after_failure_witness :
    ((∀ er, (twoJobEnvs 0).checkExists (destDirName { title := "A" })
        (destFileName { title := "A" } "markdown") = Except.ok er → er.found = false)
      ∧ throwsWith (twoJobEnvs 0) { title := "A" } "markdown" "Extraction timed out")
    ∧ ((batchExtract twoJobEnvs [{ title := "A" }, { title := "B" }] "markdown").1 =
        [{ title := "A", success := false, error := some "Extraction timed out" },
         (extractSingleChat (twoJobEnvs 1) { title := "B" } "markdown" 1 2).1]
      ∧ (extractSingleChat (twoJobEnvs 1) { title := "B" } "markdown" 1 2).1.success
          = true) :=
  ⟨⟨fun _ h => Except.noConfusion h, Or.inl rfl⟩,
   batch_continues_after_failure twoJobEnvs { title := "A" } { title := "B" }
     "markdown" "Extraction timed out" (fun _ h => Except.noConfusion h) (Or.inl rfl),
   by decide⟩

/-! ## C6: context reset after every window except the last -/

/-- The job/reset trace shape of the window loop as a function of the
job count alone (fuel-indexed to stay structurally recursive, so that
concrete traces evaluate). -/
def traceFrom (len : Nat) : Nat → Nat → List (Option Nat)
  | 0, _ => []
  | fuel + 1, ws =>
    if ws < len then
      (List.range' ws (min (ws + WINDOW_SIZE) len - ws)).map some
        ++ (if min (ws + WINDOW_SIZE) len < len then [none] else [])
        ++ traceFrom len fuel (min (ws + WINDOW_SIZE) len)
    else []

lemma batchLoop_trace (envs : Nat → JobEnv) (chats : List Chat) (format : String) :
    ∀ (n ws : Nat), chats.length - ws ≤ n →
    (batchLoop envs chats format ws).2.2 = traceFrom chats.length n ws := by
  intro n
  induction n with
  | zero =>
    intro ws hle
    have hws : ¬ ws < chats.length := by omega
    rw [batchLoop, dif_neg hws]
    rfl
  | succ n ih =>
    intro ws hle
    by_cases hws : ws < chats.length
    · rw [batchLoop, dif_pos hws]
      simp only [traceFrom]
      rw [if_pos hws,
        ih (min (ws + WINDOW_SIZE) chats.length) (by simp only [WINDOW_SIZE] at *; omega)]
    · rw [batchLoop, dif_neg hws]
      simp only [traceFrom]
      rw [if_neg hws]

lemma traceFrom_count (len : Nat) :
    ∀ (n ws : Nat), len - ws ≤ n →
    (traceFrom len n ws).countP (fun x => x.isNone) = (len - ws - 1) / 4 := by
  intro n
  induction n with
  | zero =>
    intro ws hle
    simp only [traceFrom, List.countP_nil]
    omega
  | succ n ih =>
    intro ws hle
    by_cases hws : ws < len
    · simp only [traceFrom]
      rw [if_pos hws, List.countP_append, List.countP_append]
      have h1 : ((List.range' ws (min (ws + WINDOW_SIZE) len - ws)).map some).countP
          (fun x => x.isNone) = 0 := by
        rw [List.countP_eq_zero]
        intro a ha
        rcases List.mem_map.mp ha with ⟨i, _, rfl⟩
        simp [Option.isNone]
      have h2 := ih (min (ws + WINDOW_SIZE) len)
        (by simp only [WINDOW_SIZE] at *; omega)
      rw [h1, h2]
      by_cases hlast : min (ws + WINDOW_SIZE) len < len
      · rw [if_pos hlast]
        simp only [List.countP_cons, List.countP_nil, WINDOW_SIZE] at *
        norm_num
        omega
      · rw [if_neg hlast]
        simp only [List.countP_nil, WINDOW_SIZE] at *
        omega
    · simp only [traceFrom]
      rw [if_neg hws]
      simp only [List.countP_nil]
      omega

/-- **C6.** The batch loop attempts one context reset after every full
window except the last: the number of resets is `⌊(N − 1) / 4⌋`,
and with 9 jobs the trace is jobs 0–3, reset, jobs 4–7, reset, job 8 —
a reset after job 4 and job 8 but none after job 9 (the last, partial
window). -/
theorem batch_reset_at_window_boundaries (envs : Nat → JobEnv) (chats : List Chat)
    (format : String) :
    ((batchExtract envs chats format).2.2.countP (fun x => x.isNone)
        = (chats.length - 1) / 4)
    ∧ (chats.length = 9 →
        (batchExtract envs chats format).2.2 =
          [some 0, some 1, some 2, some 3, none,
           some 4, some 5, some 6, some 7, none, some 8]) := by
  have htr := batchLoop_trace envs chats format chats.length 0 (by omega)
  constructor
  · rw [batchExtract, htr, traceFrom_count chats.length chats.length 0 (by omega)]
    omega
  · intro h9
    rw [batchExtract, htr, h9]
    decide

/-- A nine-job batch of concrete chats. -/
def nineChats : List Chat :=
  [{ title := "c1" }, { title := "c2" }, { title := "c3" }, { title := "c4" },
   { title := "c5" }, { title := "c6" }, { title := "c7" }, { title := "c8" },
   { title := "c9" }]

/-- An arbitrary per-job environment for the nine-job witness batch. -/
def nineEnvs : Nat → JobEnv :=
  fun _ =>
    { checkExists := fun _ _ => Except.ok { found := false, path := "" }
      navigate := fun _ => Except.ok ()
      extract := fun _ => Except.ok (some { totalChunks := 1, error := none, messageCount := 1 })
      fetchChunks := fun _ => Except.ok "c"
      write := fun _ _ _ => Except.ok { success := true, path := "p" } }

/-- Witness for C6 at the nine-job batch. -/
theorem batch_reset_at_window_boundaries_witness :
    nineChats.length = 9
    ∧ (batchExtract nineEnvs nineChats "markdown").2.2 =
        [some 0, some 1, some 2, some 3, none,
         some 4, some 5, some 6, some 7, none, some 8] :=
  ⟨rfl, (batch_reset_at_window_boundaries nineEnvs nineChats "markdown").2 rfl⟩

/-! ## C8: progress events are monotone, 1 .. N, in job order -/

lemma extractProceed_events (env : JobEnv) (chat : Chat) (format : String)
    (index total : Nat) :
    (∀ e ∈ (extractProceed env chat format index total).2.1, e.current = index + 1)
    ∧ (extractProceed env chat format index total).2.1 ≠ [] := by
  cases hn : env.navigate chat.url with
  | error m =>
    rw [extractProceed_nav_error format index total hn]
    refine ⟨?_, by simp⟩
    intro e he
    simp only [List.mem_cons, List.not_mem_nil, or_false] at he
    rcases he with rfl | rfl <;> rfl
  | ok u =>
    obtain rfl : u = () := rfl
    cases hx : env.extract format with
    | error m =>
      rw [extractProceed_extract_error format index total hn hx]
      refine ⟨?_, by simp⟩
      intro e he
      simp only [List.mem_cons, List.not_mem_nil, or_false] at he
      rcases he with rfl | rfl <;> rfl
    | ok resp =>
      cases resp with
      | none =>
        rw [extractProceed_no_response format index total hn hx]
        refine ⟨?_, by simp⟩
        intro e he
        simp only [List.mem_cons, List.not_mem_nil, or_false] at he
        rcases he with rfl | rfl <;> rfl
      | some r =>
        by_cases ht : r.totalChunks = 0
        · rw [extractProceed_no_chunks format index total hn hx ht]
          refine ⟨?_, by simp⟩
          intro e he
          simp only [List.mem_cons, List.not_mem_nil, or_false] at he
          rcases he with rfl | rfl <;> rfl
        · cases hf : env.fetchChunks r.totalChunks with
          | error m =>
            rw [extractProceed_fetch_error format index total hn hx ht hf]
            refine ⟨?_, by simp⟩
            intro e he
            simp only [List.mem_cons, List.not_mem_nil, or_false] at he
            rcases he with rfl | rfl | rfl <;> rfl
          | ok content =>
            cases hw : env.write (destDirName chat) (destFileName chat format) content with
            | error m =>
              rw [extractProceed_write_error format index total hn hx ht hf hw]
              refine ⟨?_, by simp⟩
              intro e he
              simp only [List.mem_cons, List.not_mem_nil, or_false] at he
              rcases he with rfl | rfl | rfl <;> rfl
            | ok wr =>
              rw [extractProceed_write_ok format index total hn hx ht hf hw]
              refine ⟨?_, by simp⟩
              intro e he
              simp only [List.mem_cons, List.not_mem_nil, or_false] at he
              rcases he with rfl | rfl | rfl <;> rfl

lemma extractSingleChat_events (env : JobEnv) (chat : Chat) (format : String)
    (index total : Nat) :
    (∀ e ∈ (extractSingleChat env chat format index total).2.1, e.current = index + 1)
    ∧ (extractSingleChat env chat format index total).2.1 ≠ [] := by
  cases hce : env.checkExists (destDirName chat) (destFileName chat format) with
  | ok er =>
    by_cases hf : er.found = true
    · rw [extractSingleChat_skip format index total hce hf]
      refine ⟨?_, by simp⟩
      intro e he
      simp only [List.mem_cons, List.not_mem_nil, or_false] at he
      subst he
      rfl
    · rw [extractSingleChat_noskip format index total hce (by simpa using hf)]
      exact extractProceed_events env chat format index total
  | error ex =>
    rw [extractSingleChat_checkfail format index total hce]
    exact extractProceed_events env chat format index total

lemma pairwise_le_of_all_eq {c : Nat} :
    ∀ (xs : List Nat), (∀ x ∈ xs, x = c) → List.Pairwise (· ≤ ·) xs := by
  intro xs
  induction xs with
  | nil => intro _; exact List.Pairwise.nil
  | cons a r ih =>
    intro h
    refine List.Pairwise.cons ?_ (ih fun x hx => h x (List.mem_cons_of_mem _ hx))
    intro b hb
    rw [h a (List.mem_cons_self _ _), h b (List.mem_cons_of_mem _ hb)]

lemma pairwise_le_flatMap (g : Nat → List Nat) :
    ∀ (l : List Nat), List.Pairwise (· < ·) l →
    (∀ k ∈ l, ∀ x ∈ g k, x = k + 1) →
    List.Pairwise (· ≤ ·) (l.flatMap g) := by
  intro l
  induction l with
  | nil => intro _ _; simp
  | cons a r ih =>
    intro hp hc
    rw [List.flatMap_cons, List.pairwise_append]
    refine ⟨pairwise_le_of_all_eq _ (fun x hx => hc a (List.mem_cons_self _ _) x hx),
            ih hp.of_cons (fun k hk x hx => hc k (List.mem_cons_of_mem _ hk) x hx), ?_⟩
    intro x hx y hy
    rcases List.mem_flatMap.mp hy with ⟨k, hk, hyk⟩
    have hxa : x = a + 1 := hc a (List.mem_cons_self _ _) x hx
    have hyk' : y = k + 1 := hc k (List.mem_cons_of_mem _ hk) y hyk
    have hak : a < k := (List.pairwise_cons.mp hp).1 k hk
    omega

/-- **C8.** Within one batch run over N ≥ 1 jobs, the progress-event
stream is the in-order concatenation of each job's events (so all of
job k's events precede all of job k+1's); every event of job k carries
`current = k + 1`; hence the `current` sequence is monotonically
non-decreasing, starts at 1, and ends at N (= `total`). -/
theorem progress_monotone (envs : Nat → JobEnv) (chats : List Chat) (format : String)
    (hpos : 0 < chats.length) :
    ((batchExtract envs chats format).2.1 =
      (List.range chats.length).flatMap
        (fun k => (extractSingleChat (envs k) (chats.getD k default) format
            k chats.length).2.1))
    ∧ (∀ k, ∀ e ∈ (extractSingleChat (envs k) (chats.getD k default) format
          k chats.length).2.1, e.current = k + 1)
    ∧ List.Pairwise (· ≤ ·)
        (((batchExtract envs chats format).2.1).map (fun e => e.current))
    ∧ (((batchExtract envs chats format).2.1).map (fun e => e.current)).head? = some 1
    ∧ (((batchExtract envs chats format).2.1).map (fun e => e.current)).getLast?
        = some chats.length := by
  have hev : (batchExtract envs chats format).2.1 =
      (List.range chats.length).flatMap (fun k => (jobOf envs chats format k).2.1) := by
    have h := (batchLoop_spec envs chats format chats.length 0 (by omega)).2
    rw [batchExtract, h, List.range_eq_range', Nat.sub_zero]
  have hcur : ∀ k, ∀ e ∈ (jobOf envs chats format k).2.1, e.current = k + 1 :=
    fun k =>
      (extractSingleChat_events (envs k) (chats.getD k default) format k chats.length).1
  have hne : ∀ k, (jobOf envs chats format k).2.1 ≠ [] :=
    fun k =>
      (extractSingleChat_events (envs k) (chats.getD k default) format k chats.length).2
  have hmapev : ((batchExtract envs chats format).2.1).map (fun e => e.current) =
      (List.range chats.length).flatMap
        (fun k => ((jobOf envs chats format k).2.1).map (fun e => e.current)) := by
    rw [hev, List.map_flatMap]
  refine ⟨hev, hcur, ?_, ?_, ?_⟩
  · rw [hmapev]
    apply pairwise_le_flatMap
    · exact List.pairwise_lt_range chats.length
    · intro k _ x hx
      rcases List.mem_map.mp hx with ⟨e, he, rfl⟩
      exact hcur k e he
  · obtain ⟨m, hm⟩ : ∃ m, chats.length = m + 1 := ⟨chats.length - 1, by omega⟩
    rw [hmapev, hm, List.range_succ_eq_map, List.flatMap_cons]
    obtain ⟨e, es, hees⟩ := List.exists_cons_of_ne_nil (hne 0)
    rw [List.head?_append_of_ne_nil]
    · rw [hees]
      simp only [List.map_cons, List.head?_cons]
      rw [hcur 0 e (by rw [hees]; exact List.mem_cons_self _ _)]
    · rw [hees]
      simp
  · obtain ⟨m, hm⟩ : ∃ m, chats.length = m + 1 := ⟨chats.length - 1, by omega⟩
    rw [hmapev, hm, List.range_succ, List.flatMap_append]
    have hsing : ([m] : List Nat).flatMap
        (fun k => ((jobOf envs chats format k).2.1).map (fun e => e.current))
        = ((jobOf envs chats format m).2.1).map (fun e => e.current) := by
      simp
    rw [hsing]
    obtain ⟨e, es, hees⟩ := List.exists_cons_of_ne_nil (hne m)
    have hgne : ((jobOf envs chats format m).2.1).map (fun e => e.current) ≠ [] := by
      rw [hees]
      simp
    rw [List.getLast?_append_of_ne_nil _ hgne]
    rcases List.eq_nil_or_concat' (((jobOf envs chats format m).2.1).map
        (fun e => e.current)) with hnil | ⟨init, b, hconcat⟩
    · exact absurd hnil hgne
    · rw [hconcat, List.getLast?_concat]
      have hbmem : b ∈ ((jobOf envs chats format m).2.1).map (fun e => e.current) := by
        rw [hconcat]
        exact List.mem_append_right _ (List.mem_cons_self _ _)
      rcases List.mem_map.mp hbmem with ⟨e', he', rfl⟩
      rw [hcur m e' he']

/-- The per-job environment of the one-job witness batch. -/
def oneEnvs : Nat → JobEnv :=
  fun _ =>
    { checkExists := fun _ _ => Except.ok { found := false, path := "" }
      navigate := fun _ => Except.ok ()
      extract := fun _ => Except.ok (some { totalChunks := 3, error := none, messageCount := 4 })
      fetchChunks := fun _ => Except.ok "body"
      write := fun _ _ _ => Except.ok { success := true, path := "p" } }

/-- Witness for C8 at the one-job batch `[{title := "w"}]`. -/
theorem progress_monotone_witness :
    0 < ([{ title := "w" }] : List Chat).length
    ∧ (((batchExtract oneEnvs [{ title := "w" }] "markdown").2.1 =
        (List.range ([{ title := "w" }] : List Chat).length).flatMap
          (fun k => (extractSingleChat (oneEnvs k)
              (([{ title := "w" }] : List Chat).getD k default) "markdown"
              k ([{ title := "w" }] : List Chat).length).2.1))
      ∧ (∀ k, ∀ e ∈ (extractSingleChat (oneEnvs k)
            (([{ title := "w" }] : List Chat).getD k default) "markdown"
            k ([{ title := "w" }] : List Chat).length).2.1, e.current = k + 1)
      ∧ List.Pairwise (· ≤ ·)
          (((batchExtract oneEnvs [{ title := "w" }] "markdown").2.1).map
            (fun e => e.current))
      ∧ (((batchExtract oneEnvs [{ title := "w" }] "markdown").2.1).map
          (fun e => e.current)).head? = some 1
      ∧ (((batchExtract oneEnvs [{ title := "w" }] "markdown").2.1).map
          (fun e => e.current)).getLast? = some ([{ title := "w" }] : List Chat).length) :=
  ⟨by decide, progress_monotone oneEnvs [{ title := "w" }] "markdown" (by decide)⟩
